import Mathlib

/-!
Verification of the Drona scan-orchestration core.

Shallow embedding of the server-side scanner:
plan merge (src/lib/scanner/scan-runner.ts), the queued-scan claim update
and the failure branch of the runner (src/lib/scanner/scan-runner.ts),
the assessor retry loop and citation validation (src/lib/scanner/agent-scan.ts),
holder supply-percent math (src/lib/scanner/agent-scan.ts),
LP lock percent math (lp-v2-lock), the Bitquery holders client,
the event-log append (src/lib/db/scan-events.ts) and the
stream cursor resolution (stream route).

Effectful code (DB writes, HTTP fetches, LLM calls) is embedded by passing
explicit state or by parameterising over the responses the upstreams return.
JavaScript BigInt arithmetic is embedded as Nat/Int; JavaScript numbers that
carry exact decimal-scaled quotients are embedded as rationals.
-/

namespace Drona

/-! ## Planned steps and plan merge (scan-runner.ts) -/

structure PlannedStep where
  stepKey : String
  toolName : String
  title : String
  reason : String
deriving DecidableEq, Repr

/-- BASELINE_STEPS from scan-runner.ts: the unconditional baseline plan. -/
def BASELINE_STEPS : List PlannedStep := [
  { stepKey := "rpc_bytecode", toolName := "rpc_getBytecode",
    title := "Fetch bytecode", reason := "Required baseline contract existence check" },
  { stepKey := "rpc_metadata", toolName := "rpc_getErc20Metadata",
    title := "Read token metadata", reason := "Collect token metadata for context" },
  { stepKey := "dex_market", toolName := "dexscreener_getPairs",
    title := "Fetch DEX market data", reason := "Collect liquidity and pool context" },
  { stepKey := "swap_honeypot", toolName := "honeypot_getSimulation",
    title := "Run honeypot swap simulation",
    reason := "Collect deterministic buy/sell tax and sellability evidence" },
  { stepKey := "lp_lock", toolName := "lp_v2_lockStatus",
    title := "Analyze V2 LP lock status", reason := "Estimate rug-pull risk from LP burn/ownership" }]

/-- BASESCAN_STEPS from scan-runner.ts: the four explorer steps. -/
def BASESCAN_STEPS : List PlannedStep := [
  { stepKey := "basescan_verification", toolName := "basescan_getSourceInfo",
    title := "Check BaseScan verification",
    reason := "Load source metadata and ABI for contract analysis" },
  { stepKey := "basescan_creation", toolName := "basescan_getContractCreation",
    title := "Fetch contract creation info",
    reason := "Identify creator wallet concentration and LP ownership" },
  { stepKey := "contract_owner", toolName := "contract_ownerStatus",
    title := "Check ownership status",
    reason := "Check if ownership is renounced and who controls admin functions" },
  { stepKey := "contract_capabilities", toolName := "contract_capabilityScan",
    title := "Scan admin capabilities",
    reason := "Detect mint/blacklist/pause/tax-risk capabilities" }]

/-- HOLDERS_STEP from scan-runner.ts. -/
def HOLDERS_STEP : PlannedStep :=
  { stepKey := "holders_distribution", toolName := "holders_getTopHolders",
    title := "Fetch holder distribution", reason := "Collect top holder concentration metrics" }

/-- One iteration of the merge loops in mergeWithBaseline: push a step unless a
step with the same toolName is already in the accumulator. -/
def pushIfNewTool (merged : List PlannedStep) (step : PlannedStep) : List PlannedStep :=
  if merged.any (fun existing => existing.toolName == step.toolName) then merged
  else merged ++ [step]

/-- mergeWithBaseline from scan-runner.ts. The two environment reads
(explorer API key, holders-provider token) are passed as booleans. -/
def mergeWithBaseline (hasExplorerKey hasHoldersToken : Bool)
    (plannedSteps : List PlannedStep) : List PlannedStep :=
  let baseline :=
    BASELINE_STEPS ++ (if hasExplorerKey then BASESCAN_STEPS else []) ++
      (if hasHoldersToken then [HOLDERS_STEP] else [])
  let merged := baseline.foldl pushIfNewTool []
  plannedSteps.foldl pushIfNewTool merged

/-! ## Scan row and the queued-to-running claim update (scan-runner.ts) -/

/-- The scans table row (src/lib/db/schema.ts). jsonb columns are embedded as
optional opaque strings; timestamps as Nat. -/
structure ScanRow where
  id : String
  chain : String
  tokenAddress : String
  status : String
  createdAt : Nat
  durationMs : Option Nat
  scannerVersion : String
  scoreVersion : String
  evidence : Option String
  score : Option String
  narrative : Option String
  model : Option String
  error : Option String
deriving DecidableEq, Repr

/-- The conditional update in runQueuedScan that claims a queued scan:
UPDATE scans SET status running, error/durationMs/evidence/score/narrative/model
NULL WHERE id matches AND status is queued, RETURNING the row. Returns none when
the condition does not hold (zero rows updated). -/
def claimQueuedScan (row : ScanRow) : Option ScanRow :=
  if row.status = "queued" then
    some { row with
      status := "running", error := none, durationMs := none, evidence := none,
      score := none, narrative := none, model := none }
  else none

/-! ## Theorems for plan merge (C7) and claim update (C10) -/

/-- C7: plan merge starts with the unconditional five-step baseline, appends
the four explorer steps iff an explorer API key is configured and the holders
step iff a holders-provider token is configured, then appends planner-proposed
steps whose tool name is not already present (pushIfNewTool dedupes by tool
name); with empty planner output and no provider credentials the merged plan is
exactly the five baseline steps in order. -/
theorem mergeWithBaseline_spec :
    (∀ ps, mergeWithBaseline false false ps = ps.foldl pushIfNewTool BASELINE_STEPS) ∧
    (∀ ps, mergeWithBaseline true false ps =
      ps.foldl pushIfNewTool (BASELINE_STEPS ++ BASESCAN_STEPS)) ∧
    (∀ ps, mergeWithBaseline false true ps =
      ps.foldl pushIfNewTool (BASELINE_STEPS ++ [HOLDERS_STEP])) ∧
    (∀ ps, mergeWithBaseline true true ps =
      ps.foldl pushIfNewTool (BASELINE_STEPS ++ BASESCAN_STEPS ++ [HOLDERS_STEP])) ∧
    (∀ acc step, pushIfNewTool acc step =
      if acc.any (fun existing => existing.toolName == step.toolName) then acc
      else acc ++ [step]) ∧
    mergeWithBaseline false false [] = BASELINE_STEPS :=
  ⟨fun _ => rfl, fun _ => rfl, fun _ => rfl, fun _ => rfl, fun _ _ => rfl, rfl⟩

/-- C10: claiming a queued scan flips status to running, resets error,
durationMs, evidence, score, narrative and model to null, and leaves id, chain,
tokenAddress, createdAt, scannerVersion and scoreVersion unchanged; it only
succeeds on a queued row. -/
theorem claimQueuedScan_resets_results (row claimed : ScanRow)
    (h : claimQueuedScan row = some claimed) :
    claimed.status = "running" ∧ claimed.error = none ∧ claimed.durationMs = none ∧
    claimed.evidence = none ∧ claimed.score = none ∧ claimed.narrative = none ∧
    claimed.model = none ∧ claimed.id = row.id ∧ claimed.chain = row.chain ∧
    claimed.tokenAddress = row.tokenAddress ∧ claimed.createdAt = row.createdAt ∧
    claimed.scannerVersion = row.scannerVersion ∧
    claimed.scoreVersion = row.scoreVersion ∧ row.status = "queued" := by
  unfold claimQueuedScan at h
  by_cases hq : row.status = "queued"
  · rw [if_pos hq] at h
    cases h
    refine ⟨rfl, rfl, rfl, rfl, rfl, rfl, rfl, rfl, rfl, rfl, rfl, rfl, rfl, hq⟩
  · rw [if_neg hq] at h
    exact absurd h (by simp)

/-- A concrete queued scan row carrying stale results from a previous run. -/
def sampleQueuedRow : ScanRow :=
  { id := "scan-1", chain := "base", tokenAddress := "0xf43eb8de897fbc7f2502483b2bef7bb9ea179229",
    status := "queued", createdAt := 1700000000, durationMs := some 1234,
    scannerVersion := "v2-agent-two-phase", scoreVersion := "v2-agent-two-phase",
    evidence := some "old-evidence", score := some "old-score",
    narrative := some "old-narrative", model := some "old-model", error := some "old-error" }

/-- The row produced by claiming sampleQueuedRow. -/
def sampleClaimedRow : ScanRow :=
  { sampleQueuedRow with
    status := "running", error := none, durationMs := none, evidence := none,
    score := none, narrative := none, model := none }

/-- Witness for C10 at a concrete row. -/
theorem claimQueuedScan_resets_results_witness :
    sampleClaimedRow.status = "running" ∧ sampleClaimedRow.error = none ∧
    sampleClaimedRow.durationMs = none ∧ sampleClaimedRow.evidence = none ∧
    sampleClaimedRow.score = none ∧ sampleClaimedRow.narrative = none ∧
    sampleClaimedRow.model = none ∧ sampleClaimedRow.id = sampleQueuedRow.id ∧
    sampleClaimedRow.chain = sampleQueuedRow.chain ∧
    sampleClaimedRow.tokenAddress = sampleQueuedRow.tokenAddress ∧
    sampleClaimedRow.createdAt = sampleQueuedRow.createdAt ∧
    sampleClaimedRow.scannerVersion = sampleQueuedRow.scannerVersion ∧
    sampleClaimedRow.scoreVersion = sampleQueuedRow.scoreVersion ∧
    sampleQueuedRow.status = "queued" :=
  claimQueuedScan_resets_results sampleQueuedRow sampleClaimedRow rfl

/-! ## Runner failure branch ordering (scan-runner.ts, catch block) -/

/-- A primitive persistence action performed by the runner, in program order:
an appendScanEvent call (recorded by event type and level) or the scans-row
UPDATE that sets a terminal status. -/
inductive RunnerAction where
  | appendEvent (type level : String)
  | persistScan (status : String)
deriving DecidableEq, Repr

/-- The catch block of runQueuedScan, as the ordered list of persistence
actions it performs: emit step.failed unless one was already emitted, then
emit run.failed, then UPDATE the scan row to status failed. -/
def failureBranchActions (hasEmittedStepFailure : Bool) : List RunnerAction :=
  (if hasEmittedStepFailure then []
   else [RunnerAction.appendEvent "step.failed" "error"]) ++
  [RunnerAction.appendEvent "run.failed" "error", RunnerAction.persistScan "failed"]

/-- Persistent state visible to other readers: the scan row status and the
types of the events appended so far. -/
structure DbState where
  scanStatus : String
  eventTypes : List String
deriving DecidableEq, Repr

def applyRunnerAction (st : DbState) : RunnerAction → DbState
  | RunnerAction.appendEvent t _level => { st with eventTypes := st.eventTypes ++ [t] }
  | RunnerAction.persistScan s => { st with scanStatus := s }

def runRunnerActions (st : DbState) (acts : List RunnerAction) : DbState :=
  acts.foldl applyRunnerAction st

/-- C2 counterexample: executing the failure branch (step.failed already
emitted) from a running scan, the state reached right after the first action
already contains the run.failed event while the scan row status is still
running, not failed — the persistence step comes after the event. -/
theorem runFailed_event_precedes_failed_persist :
    "run.failed" ∈ (runRunnerActions { scanStatus := "running", eventTypes := [] }
      ((failureBranchActions true).take 1)).eventTypes ∧
    (runRunnerActions { scanStatus := "running", eventTypes := [] }
      ((failureBranchActions true).take 1)).scanStatus = "running" ∧
    (failureBranchActions true).take 1 ≠ failureBranchActions true := by
  refine ⟨?_, rfl, by decide⟩
  simp [failureBranchActions, runRunnerActions, applyRunnerAction]

/-- C2 amended: in the failure branch the run.failed event is appended first
and the scan row is persisted as failed only afterwards: after the whole
branch the row is failed and run.failed is present, but in the prefix of the
branch that stops just before the final persist action the run.failed event is
already appended while the scan row status is still whatever it was before
(running), for either value of the step-failure flag. -/
theorem failureBranch_order (b : Bool) (s0 : DbState) :
    (runRunnerActions s0 (failureBranchActions b)).scanStatus = "failed" ∧
    "run.failed" ∈ (runRunnerActions s0 (failureBranchActions b)).eventTypes ∧
    (runRunnerActions s0
      ((failureBranchActions b).take ((failureBranchActions b).length - 1))).scanStatus
      = s0.scanStatus ∧
    "run.failed" ∈ (runRunnerActions s0
      ((failureBranchActions b).take ((failureBranchActions b).length - 1))).eventTypes ∧
    (failureBranchActions b).getLast? = some (RunnerAction.persistScan "failed") := by
  cases b <;>
    simp [failureBranchActions, runRunnerActions, applyRunnerAction]

/-! ## Event log append and seq contiguity (scan-events.ts) -/

/-- A scan_events row restricted to the columns the contiguity invariant
speaks about. -/
structure EventRow where
  scanId : String
  seq : Nat
deriving DecidableEq, Repr

/-- SELECT max(seq) FROM scan_events WHERE scan_id matches, with null
coalesced to 0 (the last?.maxSeq ?? 0 step of appendScanEvent). -/
def maxSeqFor (st : List EventRow) (scanId : String) : Nat :=
  ((st.filter (fun e => e.scanId == scanId)).map (fun e => e.seq)).foldl max 0

/-- appendScanEvent from scan-events.ts: inside a transaction that locks the
scan row, read the current max(seq) for the scan and insert a row with
seq = max + 1. The row lock serialises appends, so the sequential model is
faithful. -/
def appendScanEvent (st : List EventRow) (scanId : String) : List EventRow :=
  st ++ [{ scanId := scanId, seq := maxSeqFor st scanId + 1 }]

/-- Event-log states reachable from the empty table by appendScanEvent. -/
inductive ReachableEventLog : List EventRow → Prop where
  | empty : ReachableEventLog []
  | append (st : List EventRow) (scanId : String) (h : ReachableEventLog st) :
      ReachableEventLog (appendScanEvent st scanId)

theorem foldl_max_range_one (n : Nat) :
    (List.range' 1 n).foldl max 0 = n := by
  induction n with
  | zero => rfl
  | succ k ih =>
    rw [List.range'_concat, List.foldl_append, ih]
    simp [Nat.max_def]
    omega

/-- C8: in every reachable event-log state, the seq values of a scan's events,
in insertion order, are exactly 1, 2, ..., N — a contiguous prefix of the
positive integers with no gaps or duplicates. -/
theorem scanEvent_seq_contiguous (st : List EventRow) (h : ReachableEventLog st)
    (scanId : String) :
    (st.filter (fun e => e.scanId == scanId)).map (fun e => e.seq) =
      List.range' 1 (st.filter (fun e => e.scanId == scanId)).length := by
  induction h with
  | empty => rfl
  | append st' sid _hr ih =>
    by_cases hsid : sid = scanId
    · subst hsid
      have hfilter :
          (appendScanEvent st' sid).filter (fun e => e.scanId == sid) =
            st'.filter (fun e => e.scanId == sid) ++
              [{ scanId := sid, seq := maxSeqFor st' sid + 1 }] := by
        simp [appendScanEvent, List.filter_append]
      have hmax : maxSeqFor st' sid =
          (st'.filter (fun e => e.scanId == sid)).length := by
        unfold maxSeqFor
        rw [ih]
        exact foldl_max_range_one _
      rw [hfilter, List.map_append, List.length_append, ih, hmax]
      simp only [List.length_singleton, List.map_cons, List.map_nil]
      rw [List.range'_concat]
      simp [Nat.add_comm]
    · have hfilter :
          (appendScanEvent st' sid).filter (fun e => e.scanId == scanId) =
            st'.filter (fun e => e.scanId == scanId) := by
        simp [appendScanEvent, List.filter_append, hsid]
      rw [hfilter, ih]

/-- A concrete reachable log: two appends for the same scan. -/
def sampleEventLog : List EventRow := appendScanEvent (appendScanEvent [] "scan-a") "scan-a"

/-- Witness for C8: on the concrete two-append log the seq column reads 1, 2. -/
theorem scanEvent_seq_contiguous_witness :
    (sampleEventLog.filter (fun e => e.scanId == "scan-a")).map (fun e => e.seq) =
      List.range' 1 (sampleEventLog.filter (fun e => e.scanId == "scan-a")).length :=
  scanEvent_seq_contiguous sampleEventLog
    (ReachableEventLog.append _ "scan-a" (ReachableEventLog.append _ "scan-a"
      ReachableEventLog.empty)) "scan-a"

/-! ## Stream cursor resolution and event replay (stream route, scan-events.ts) -/

/-- The clamp applied to the after query-string value: finite and positive, or
0. An absent or non-numeric value is embedded as none. -/
def clampCursor (value : Option Int) : Int :=
  match value with
  | some v => if 0 < v then v else 0
  | none => 0

/-- Cursor resolution from the stream route: queryCursor is the clamped after
parameter, and the cursor is the Last-Event-ID header when finite and
positive, otherwise queryCursor. -/
def resolveStreamCursor (afterFromQuery afterFromHeader : Option Int) : Int :=
  let queryCursor := clampCursor afterFromQuery
  match afterFromHeader with
  | some v => if 0 < v then v else queryCursor
  | none => queryCursor

/-- Modelled from the spec: the spec words the starting cursor as the maximum
of the query-string after value and the Last-Event-ID header, each treated as
0 when absent or non-positive. Stated for comparison with
resolveStreamCursor, which is what the route actually does. -/
def resolveStreamCursorSpecMax (afterFromQuery afterFromHeader : Option Int) : Int :=
  max (clampCursor afterFromQuery) (clampCursor afterFromHeader)

/-- A scan_events row for one scan as seen by the stream: global id, per-scan
seq, and event type. -/
structure PersistedEvent where
  id : Int
  seq : Nat
  type : String
deriving DecidableEq, Repr

def byEventId (a b : PersistedEvent) : Prop := a.id ≤ b.id

instance : DecidableRel byEventId := fun a b => inferInstanceAs (Decidable (a.id ≤ b.id))

instance : IsTotal PersistedEvent byEventId := ⟨fun a b => Int.le_total a.id b.id⟩

instance : IsTrans PersistedEvent byEventId := ⟨fun _ _ _ hab hbc => le_trans hab hbc⟩

/-- listScanEventsAfter from scan-events.ts: the scan's events with id
strictly greater than afterId, ordered by ascending global id. The table is
embedded as an unordered list and the ORDER BY as a sort. -/
def listScanEventsAfter (events : List PersistedEvent) (afterId : Int) :
    List PersistedEvent :=
  List.insertionSort byEventId (events.filter (fun e => decide (afterId < e.id)))

/-- C6 counterexample: with after 10 in the query string and Last-Event-ID 5,
the route starts from cursor 5 (the header wins whenever it is positive),
while the claimed max of the two cursors is 10. -/
theorem resolveStreamCursor_not_max :
    resolveStreamCursor (some 10) (some 5) = 5 ∧
    resolveStreamCursorSpecMax (some 10) (some 5) = 10 ∧
    resolveStreamCursor (some 10) (some 5) ≠
      resolveStreamCursorSpecMax (some 10) (some 5) := by
  refine ⟨rfl, rfl, by decide⟩

/-- C6 amended: the starting cursor is the Last-Event-ID header whenever that
is positive (regardless of the after parameter), and otherwise the clamped
after parameter; resuming from cursor K replays exactly the persisted events
with id strictly greater than K, in ascending id order. -/
theorem streamCursor_and_replay_spec (q : Option Int) (K : Int)
    (events : List PersistedEvent) (hK : 0 < K) :
    resolveStreamCursor q (some K) = K ∧
    resolveStreamCursor q none = clampCursor q ∧
    (∀ v : Int, v ≤ 0 → resolveStreamCursor q (some v) = clampCursor q) ∧
    (∀ e, e ∈ listScanEventsAfter events K ↔ e ∈ events ∧ K < e.id) ∧
    List.Sorted byEventId (listScanEventsAfter events K) := by
  refine ⟨?_, rfl, ?_, ?_, ?_⟩
  · simp [resolveStreamCursor, hK]
  · intro v hv
    simp [resolveStreamCursor, clampCursor]
    omega
  · intro e
    unfold listScanEventsAfter
    rw [(List.perm_insertionSort byEventId _).mem_iff, List.mem_filter]
    simp
  · exact List.sorted_insertionSort byEventId _

/-- A concrete unordered store of persisted events for one scan. -/
def sampleEventStore : List PersistedEvent :=
  [{ id := 7, seq := 3, type := "step.started" },
   { id := 3, seq := 1, type := "run.started" },
   { id := 9, seq := 4, type := "run.completed" },
   { id := 5, seq := 2, type := "log.line" }]

/-- Witness for C6 (amended) at cursor 5 over the concrete store. -/
theorem streamCursor_and_replay_spec_witness :
    resolveStreamCursor (some 2) (some 5) = 5 ∧
    resolveStreamCursor (some 2) none = clampCursor (some 2) ∧
    (∀ v : Int, v ≤ 0 → resolveStreamCursor (some 2) (some v) = clampCursor (some 2)) ∧
    (∀ e, e ∈ listScanEventsAfter sampleEventStore 5 ↔ e ∈ sampleEventStore ∧ 5 < e.id) ∧
    List.Sorted byEventId (listScanEventsAfter sampleEventStore 5) :=
  streamCursor_and_replay_spec (some 2) 5 sampleEventStore (by decide)

/-! ## LP lock percent math (lp-v2-lock, part of the chains layer) -/

/-- toPct from the LP lock analyzer: null for a missing or non-positive
totalSupply, otherwise Number(((numerator * 10000n) / denominator).toString())
divided by 100. BigInt division is Int division on non-negative operands; the
exact JavaScript quotient of an integer by 100 is embedded as a rational. -/
def toPct (numerator : Int) (denominator : Option Int) : Option ℚ :=
  match denominator with
  | none => none
  | some den =>
      if den ≤ 0 then none
      else some (((numerator * 10000 / den : Int) : ℚ) / 100)

/-- Modelled from the spec: the spec words the ratio-to-percent conversion as
fixed precision of 4 fractional digits using (num * 100 * 10 ^ p) / den with
p = 4. Stated for comparison with toPct, which is what the analyzer does. -/
def toPctSpecFourDigits (numerator : Int) (denominator : Option Int) : Option ℚ :=
  match denominator with
  | none => none
  | some den =>
      if den ≤ 0 then none
      else some (((numerator * 100 * 10 ^ 4 / den : Int) : ℚ) / (10 ^ 4 : ℚ))

/-- The computed block of getV2LpLockStatus: burned is balanceOf(zero) plus
balanceOf(dead) with missing reads coalesced to 0; burnedPct and deployerPct
are toPct of burned and of the deployer balance against totalSupply. -/
def lpComputedPcts (totalSupply zeroBalance deadBalance deployerBalance : Option Int) :
    Option ℚ × Option ℚ :=
  let burned := zeroBalance.getD 0 + deadBalance.getD 0
  (toPct burned totalSupply, toPct (deployerBalance.getD 0) totalSupply)

/-- C5 counterexample: at numerator 1, denominator 3 the analyzer produces
33.33 (two fractional digits), while the claimed 4-fractional-digit formula
produces 33.3333; the two disagree. -/
theorem toPct_not_four_fractional_digits :
    toPct 1 (some 3) = some (3333 / 100 : ℚ) ∧
    toPctSpecFourDigits 1 (some 3) = some (333333 / 10000 : ℚ) ∧
    toPct 1 (some 3) ≠ toPctSpecFourDigits 1 (some 3) := by
  have h1 : toPct 1 (some 3) = some (3333 / 100 : ℚ) := by
    simp only [toPct, if_neg (by norm_num : ¬ (3 : Int) ≤ 0)]
    rw [show ((1 * 10000 / 3 : Int)) = 3333 from by decide]
    norm_num
  have h2 : toPctSpecFourDigits 1 (some 3) = some (333333 / 10000 : ℚ) := by
    simp only [toPctSpecFourDigits, if_neg (by norm_num : ¬ (3 : Int) ≤ 0)]
    rw [show ((1 * 100 * 10 ^ 4 / 3 : Int)) = 333333 from by decide]
    norm_num
  refine ⟨h1, h2, ?_⟩
  rw [h1, h2]
  intro h
  rw [Option.some_inj] at h
  norm_num at h

/-- C5 amended: burnedPct and deployerPct are computed on big integers as
toPct of (balanceOf(zero) + balanceOf(dead)) and balanceOf(deployer) over
totalSupply, and toPct realises the fixed-precision formula
(num * 100 * 10 ^ p) / den with p = 2 fractional digits, not 4. -/
theorem toPct_two_fractional_digits (num den : Int) (hden : 0 < den) :
    toPct num (some den) = some (((num * 100 * 10 ^ 2 / den : Int) : ℚ) / (10 ^ 2 : ℚ)) ∧
    (∀ ts zb db depb : Option Int,
      lpComputedPcts ts zb db depb =
        (toPct (zb.getD 0 + db.getD 0) ts, toPct (depb.getD 0) ts)) := by
  constructor
  · have h1 : num * 100 * 10 ^ 2 = num * 10000 := by ring
    have h2 : ((10 : ℚ) ^ 2) = 100 := by norm_num
    simp only [toPct, if_neg (not_le.mpr hden), h1, h2]
  · intro ts zb db depb
    rfl

/-- Witness for C5 (amended) at numerator 1, denominator 3. -/
theorem toPct_two_fractional_digits_witness :
    toPct 1 (some 3) = some (((1 * 100 * 10 ^ 2 / 3 : Int) : ℚ) / (10 ^ 2 : ℚ)) ∧
    (∀ ts zb db depb : Option Int,
      lpComputedPcts ts zb db depb =
        (toPct (zb.getD 0 + db.getD 0) ts, toPct (depb.getD 0) ts)) :=
  toPct_two_fractional_digits 1 3 (by decide)

/-! ## Holder supply-percent math (agent-scan.ts) -/

/-- Decimal digits read as a base-10 natural (the BigInt constructor applied
to a digit string). -/
def digitsToNat (cs : List Char) : Nat :=
  cs.foldl (fun acc c => acc * 10 + (c.toNat - 48)) 0

def isAllDigits (cs : List Char) : Bool :=
  cs.length > 0 && cs.all (fun c => c.isDigit)

/-- Split a character list at every dot, like the string split used to take a
decimal string apart into whole and fractional parts. -/
def splitOnDot (cs : List Char) : List (List Char) :=
  match cs with
  | [] => [[]]
  | c :: rest =>
      let parts := splitOnDot rest
      if c = Char.ofNat 46 then [] :: parts
      else
        match parts with
        | p :: ps => (c :: p) :: ps
        | [] => [[c]]

/-- Whitespace trim of both ends of a character list. -/
def trimChars (cs : List Char) : List Char :=
  ((cs.dropWhile Char.isWhitespace).reverse.dropWhile Char.isWhitespace).reverse

/-- parseDecimalToScaledBigInt from agent-scan.ts: trim, require the shape
digits or digits-dot-digits, then scale: whole * 10 ^ scale plus the fraction
truncated to scale digits and right-padded with zeros. The scale < 0 guard is
vacuous here since scale is a Nat. Strings are handled as character lists so
that the parser is structurally recursive. -/
def parseDecimalToScaledBigInt (input : String) (scale : Nat) : Option Nat :=
  let trimmed := trimChars input.toList
  match splitOnDot trimmed with
  | [whole] =>
      if isAllDigits whole then some (digitsToNat whole * 10 ^ scale) else none
  | [whole, fraction] =>
      if isAllDigits whole && isAllDigits fraction then
        let fracTrunc := fraction.take scale
        let fracPadded := fracTrunc ++ List.replicate (scale - fracTrunc.length) (Char.ofNat 48)
        some (digitsToNat whole * 10 ^ scale + digitsToNat fracPadded)
      else none
  | _ => none

/-- ratioToPercent from agent-scan.ts: null on non-positive denominator or
negative numerator, otherwise (num * 100 * 10 ^ precision) / den on big
integers, then divided by 10 ^ precision as an exact rational. -/
def ratioToPercent (numerator denominator : Int) (precision : Nat) : Option ℚ :=
  if denominator ≤ 0 ∨ numerator < 0 then none
  else
    let percentScale : Int := 10 ^ precision
    some (((numerator * 100 * percentScale / denominator : Int) : ℚ) / (percentScale : ℚ))

/-- The per-holder pctOfSupply computation in the holders_getTopHolders
branch: amountUnits is the parsed amount at the normalized decimals when the
fetch method allows supply percentages; pctOfSupply is ratioToPercent of
amountUnits over totalSupplyUnits at precision 4, and null whenever any
ingredient is missing. -/
def pctOfSupplyFor (canComputeSupplyPct : Bool) (normalizedDecimals : Option Nat)
    (totalSupplyUnits : Option Nat) (amount : String) : Option ℚ :=
  let amountUnits : Option Nat :=
    if canComputeSupplyPct then
      match normalizedDecimals with
      | some d => parseDecimalToScaledBigInt amount d
      | none => none
    else none
  if canComputeSupplyPct then
    match amountUnits, totalSupplyUnits with
    | some units, some supply => ratioToPercent units supply 4
    | _, _ => none
  else none

/-- top5Pct and top10Pct from the holders_getTopHolders branch: hasSupplyPct
is whether some top-five holder has a non-null pctOfSupply; each aggregate is
the reduce over the mapped holders of pctOfSupply with null coalesced to 0,
and null when hasSupplyPct is false. -/
def holdersTopPcts (canComputeSupplyPct : Bool) (normalizedDecimals : Option Nat)
    (totalSupplyUnits : Option Nat) (amounts : List String) : Option ℚ × Option ℚ :=
  let pct := pctOfSupplyFor canComputeSupplyPct normalizedDecimals totalSupplyUnits
  let topFivePcts := (amounts.take 5).map pct
  let topTenPcts := (amounts.take 10).map pct
  let hasSupplyPct := topFivePcts.any Option.isSome
  let top5Pct :=
    if hasSupplyPct then some (topFivePcts.foldl (fun s p => s + p.getD 0) 0) else none
  let top10Pct :=
    if hasSupplyPct then some (topTenPcts.foldl (fun s p => s + p.getD 0) 0) else none
  (top5Pct, top10Pct)

/-- C4 counterexample: with decimals 0 and totalSupply 1000, the amounts
100, x, 50, 50, 50 give pctOfSupply 10, null, 5, 5, 5 — one holder's
pctOfSupply is null, yet top5Pct and top10Pct are 25, not null: nulls are
coalesced to 0 and only an all-null top five yields null. -/
theorem holdersTopPcts_counterexample :
    pctOfSupplyFor true (some 0) (some 1000) "x" = none ∧
    pctOfSupplyFor true (some 0) (some 1000) "100" = some 10 ∧
    (holdersTopPcts true (some 0) (some 1000) ["100", "x", "50", "50", "50"]).1 = some 25 ∧
    (holdersTopPcts true (some 0) (some 1000) ["100", "x", "50", "50", "50"]).2 = some 25 := by
  have hx : parseDecimalToScaledBigInt "x" 0 = none := rfl
  have h100 : parseDecimalToScaledBigInt "100" 0 = some 100 := rfl
  have h50 : parseDecimalToScaledBigInt "50" 0 = some 50 := rfl
  have hr100 : ratioToPercent 100 1000 4 = some 10 := by
    simp only [ratioToPercent, if_neg (by norm_num : ¬ ((1000 : Int) ≤ 0 ∨ (100 : Int) < 0))]
    rw [show (((100 : Int) * 100 * 10 ^ 4 / 1000 : Int)) = 100000 from by decide]
    norm_num
  have hr50 : ratioToPercent 50 1000 4 = some 5 := by
    simp only [ratioToPercent, if_neg (by norm_num : ¬ ((1000 : Int) ≤ 0 ∨ (50 : Int) < 0))]
    rw [show (((50 : Int) * 100 * 10 ^ 4 / 1000 : Int)) = 50000 from by decide]
    norm_num
  have hpx : pctOfSupplyFor true (some 0) (some 1000) "x" = none := by
    simp [pctOfSupplyFor, hx]
  have hp100 : pctOfSupplyFor true (some 0) (some 1000) "100" = some 10 := by
    simpa [pctOfSupplyFor, h100] using hr100
  have hp50 : pctOfSupplyFor true (some 0) (some 1000) "50" = some 5 := by
    simpa [pctOfSupplyFor, h50] using hr50
  refine ⟨hpx, hp100, ?_, ?_⟩ <;>
  · simp [holdersTopPcts, hpx, hp100, hp50]
    norm_num

/-- C4 amended: top5Pct (resp. top10Pct) is the sum over the top 5 (resp. top
10) holders of pctOfSupply with null values contributing 0, and each is null
exactly when every top-five holder's pctOfSupply is null — the top-ten
aggregate's nullness is keyed to the top five, not to its own entries. -/
theorem holdersTopPcts_spec (canCompute : Bool) (nd ts : Option Nat)
    (amounts : List String) :
    (holdersTopPcts canCompute nd ts amounts).1 =
      (if ((amounts.take 5).map (pctOfSupplyFor canCompute nd ts)).any Option.isSome
       then some (((amounts.take 5).map (pctOfSupplyFor canCompute nd ts)).foldl
         (fun s p => s + p.getD 0) 0)
       else none) ∧
    (holdersTopPcts canCompute nd ts amounts).2 =
      (if ((amounts.take 5).map (pctOfSupplyFor canCompute nd ts)).any Option.isSome
       then some (((amounts.take 10).map (pctOfSupplyFor canCompute nd ts)).foldl
         (fun s p => s + p.getD 0) 0)
       else none) ∧
    ((holdersTopPcts canCompute nd ts amounts).1 = none ↔
      ∀ p ∈ (amounts.take 5).map (pctOfSupplyFor canCompute nd ts), p = none) ∧
    ((holdersTopPcts canCompute nd ts amounts).2 = none ↔
      ∀ p ∈ (amounts.take 5).map (pctOfSupplyFor canCompute nd ts), p = none) := by
  have hiff : ∀ val : ℚ,
      ((if ((amounts.take 5).map (pctOfSupplyFor canCompute nd ts)).any Option.isSome
        then some val else none) = none ↔
        ∀ p ∈ (amounts.take 5).map (pctOfSupplyFor canCompute nd ts), p = none) := by
    intro val
    by_cases hb : ((amounts.take 5).map (pctOfSupplyFor canCompute nd ts)).any Option.isSome
    · simp only [hb, if_true]
      constructor
      · intro h
        exact absurd h (by simp)
      · intro hall
        obtain ⟨p, hp, hps⟩ := List.any_eq_true.mp hb
        rw [hall p hp] at hps
        simp at hps
    · simp only [hb, if_false]
      constructor
      · intro _ p hp
        by_contra hne
        have : p.isSome := Option.ne_none_iff_isSome.mp hne
        exact hb (List.any_eq_true.mpr ⟨p, hp, this⟩)
      · intro _
        rfl
  exact ⟨rfl, rfl, hiff _, hiff _⟩

/-! ## Assessment citation validation (agent-scan.ts) -/

/-- An evidence ledger item restricted to the fields the validation and the
holders claims speak about. The tool-specific data object is not needed here. -/
structure EvidenceItem where
  id : String
  tool : String
  title : String
  status : String
  error : Option String
deriving DecidableEq, Repr

/-- An assessment reason: title, detail, evidence references. -/
structure Reason where
  title : String
  detail : String
  evidenceRefs : List String
deriving DecidableEq, Repr

/-- hydrateMissingEvidenceRefs from agent-scan.ts: a reason with a non-empty
evidenceRefs list is kept; a reason with an empty list gets the full set of
collected evidence ids. -/
def hydrateMissingEvidenceRefs (reasons : List Reason) (evidenceItems : List EvidenceItem) :
    List Reason :=
  let allEvidenceIds := evidenceItems.map (fun item => item.id)
  reasons.map (fun reason =>
    if reason.evidenceRefs.length > 0 then reason
    else { reason with evidenceRefs := allEvidenceIds })

/-- The per-reason body of the assertReasonCitations loop: reject a
whitespace-only title or detail, an empty evidenceRefs list, or any ref that
is not a collected evidence id. -/
def checkReason (ids : List String) (reason : Reason) : Except String Unit :=
  if trimChars reason.title.toList = [] ∨ trimChars reason.detail.toList = [] then
    Except.error "Assessment reasons must have non-empty title and detail"
  else if reason.evidenceRefs.length = 0 then
    Except.error "Assessment reasons must include at least one evidence reference"
  else
    match reason.evidenceRefs.find? (fun ref => !(ids.contains ref)) with
    | some ref => Except.error ("Assessment referenced unknown evidence id: " ++ ref)
    | none => Except.ok ()

def checkReasonList (ids : List String) : List Reason → Except String Unit
  | [] => Except.ok ()
  | reason :: rest =>
      match checkReason ids reason with
      | Except.error e => Except.error e
      | Except.ok _ => checkReasonList ids rest

/-- assertReasonCitations from agent-scan.ts: reject zero reasons, then check
every reason in order against the set of collected evidence ids. -/
def assertReasonCitations (reasons : List Reason) (evidenceItems : List EvidenceItem) :
    Except String Unit :=
  if reasons.length = 0 then
    Except.error "Assessment must include at least one reason"
  else checkReasonList (evidenceItems.map (fun item => item.id)) reasons

/-- The validation pipeline of assessBaseScan: hydrate empty evidenceRefs
first, then assert the citations; on success the hydrated reasons are the ones
returned. -/
def validateAssessmentReasons (reasons : List Reason) (evidenceItems : List EvidenceItem) :
    Except String (List Reason) :=
  let hydrated := hydrateMissingEvidenceRefs reasons evidenceItems
  match assertReasonCitations hydrated evidenceItems with
  | Except.error e => Except.error e
  | Except.ok _ => Except.ok hydrated

def isErrorResult {α : Type} : Except String α → Bool
  | Except.error _ => true
  | Except.ok _ => false

theorem checkReasonList_mem_ok {ids : List String} {reasons : List Reason}
    (h : checkReasonList ids reasons = Except.ok ()) :
    ∀ r ∈ reasons, checkReason ids r = Except.ok () := by
  induction reasons with
  | nil => intro r hr; cases hr
  | cons head tail ih =>
    intro r hr
    unfold checkReasonList at h
    cases hh : checkReason ids head with
    | error e => rw [hh] at h; cases h
    | ok u =>
      rw [hh] at h
      cases hr with
      | head => cases u; exact hh
      | tail _ htail => exact ih h r htail

theorem checkReasonList_mem_bad {ids : List String} {reasons : List Reason}
    (r : Reason) (hr : r ∈ reasons) (hbad : checkReason ids r ≠ Except.ok ()) :
    isErrorResult (checkReasonList ids reasons) = true := by
  induction reasons with
  | nil => cases hr
  | cons head tail ih =>
    unfold checkReasonList
    cases hh : checkReason ids head with
    | error e => rfl
    | ok u =>
      cases hr with
      | head => cases u; exact absurd hh hbad
      | tail _ htail => exact ih htail

theorem checkReason_ok_refs_resolve {ids : List String} {r : Reason}
    (h : checkReason ids r = Except.ok ()) :
    ∀ ref ∈ r.evidenceRefs, ref ∈ ids := by
  intro ref href
  unfold checkReason at h
  by_cases h1 : trimChars r.title.toList = [] ∨ trimChars r.detail.toList = []
  · rw [if_pos h1] at h; cases h
  · rw [if_neg h1] at h
    by_cases h2 : r.evidenceRefs.length = 0
    · rw [if_pos h2] at h; cases h
    · rw [if_neg h2] at h
      cases hf : r.evidenceRefs.find? (fun ref => !(ids.contains ref)) with
      | some bad => rw [hf] at h; cases h
      | none =>
        have := List.find?_eq_none.mp hf ref href
        simp at this
        exact this

/-- C9: the assessor validation hydrates every reason whose evidenceRefs list
is empty with the full set of collected evidence ids, then rejects assessments
with zero reasons, with a whitespace-only title or detail, or with an
evidenceRef that matches no collected evidence id; an assessment that passes
returns the hydrated reasons and every evidenceRef in them resolves to a
collected evidence id. -/
theorem validateAssessmentReasons_spec (reasons : List Reason)
    (evidenceItems : List EvidenceItem) :
    (reasons = [] → isErrorResult (validateAssessmentReasons reasons evidenceItems) = true) ∧
    ((∃ r ∈ reasons, trimChars r.title.toList = [] ∨ trimChars r.detail.toList = []) →
      isErrorResult (validateAssessmentReasons reasons evidenceItems) = true) ∧
    ((∃ r ∈ reasons, r.evidenceRefs ≠ [] ∧
        ∃ ref ∈ r.evidenceRefs, ref ∉ evidenceItems.map (fun item => item.id)) →
      isErrorResult (validateAssessmentReasons reasons evidenceItems) = true) ∧
    (∀ out, validateAssessmentReasons reasons evidenceItems = Except.ok out →
      out = hydrateMissingEvidenceRefs reasons evidenceItems ∧
      ∀ r ∈ out, ∀ ref ∈ r.evidenceRefs, ref ∈ evidenceItems.map (fun item => item.id)) := by
  refine ⟨?_, ?_, ?_, ?_⟩
  · intro hnil
    subst hnil
    rfl
  · rintro ⟨r, hr, hbad⟩
    simp only [validateAssessmentReasons, assertReasonCitations]
    have hlen : (hydrateMissingEvidenceRefs reasons evidenceItems).length ≠ 0 := by
      simp [hydrateMissingEvidenceRefs]
      intro hcon
      subst hcon
      cases hr
    rw [if_neg hlen]
    set hr2 : Reason :=
      (if r.evidenceRefs.length > 0 then r
       else { r with evidenceRefs := evidenceItems.map (fun item => item.id) }) with hdef
    have hmem : hr2 ∈ hydrateMissingEvidenceRefs reasons evidenceItems := by
      simp only [hydrateMissingEvidenceRefs]
      exact List.mem_map.mpr ⟨r, hr, rfl⟩
    have htitle : hr2.title = r.title ∧ hr2.detail = r.detail := by
      rw [hdef]
      by_cases hc : r.evidenceRefs.length > 0 <;> simp [hc]
    have hbad2 : checkReason (evidenceItems.map (fun item => item.id)) hr2 ≠ Except.ok () := by
      unfold checkReason
      rw [if_pos (by rw [htitle.1, htitle.2]; exact hbad)]
      simp
    cases hres : checkReasonList (evidenceItems.map (fun item => item.id))
        (hydrateMissingEvidenceRefs reasons evidenceItems) with
    | error e => simp [hres, isErrorResult]
    | ok u =>
      cases u
      exact absurd (checkReasonList_mem_ok hres hr2 hmem) hbad2
  · rintro ⟨r, hr, hne, ref, href, hnotin⟩
    simp only [validateAssessmentReasons, assertReasonCitations]
    have hlen : (hydrateMissingEvidenceRefs reasons evidenceItems).length ≠ 0 := by
      simp [hydrateMissingEvidenceRefs]
      intro hcon
      subst hcon
      cases hr
    rw [if_neg hlen]
    have hkeep : (if r.evidenceRefs.length > 0 then r
        else { r with evidenceRefs := evidenceItems.map (fun item => item.id) }) = r := by
      rw [if_pos (by cases hre : r.evidenceRefs with
        | nil => exact absurd hre hne
        | cons a as => simp [hre])]
    have hmem : r ∈ hydrateMissingEvidenceRefs reasons evidenceItems := by
      simp only [hydrateMissingEvidenceRefs]
      exact List.mem_map.mpr ⟨r, hr, hkeep⟩
    have hbad2 : checkReason (evidenceItems.map (fun item => item.id)) r ≠ Except.ok () := by
      unfold checkReason
      by_cases h1 : trimChars r.title.toList = [] ∨ trimChars r.detail.toList = []
      · rw [if_pos h1]; simp
      · rw [if_neg h1]
        rw [if_neg (by simp; intro hcon; exact absurd hcon hne)]
        cases hf : r.evidenceRefs.find? (fun x => !((evidenceItems.map (fun item => item.id)).contains x)) with
        | some bad => simp
        | none =>
          have hmem2 := List.find?_eq_none.mp hf ref href
          simp at hmem2
          exact absurd (List.mem_map.mpr hmem2) hnotin
    cases hres : checkReasonList (evidenceItems.map (fun item => item.id))
        (hydrateMissingEvidenceRefs reasons evidenceItems) with
    | error e => simp [hres, isErrorResult]
    | ok u =>
      cases u
      exact absurd (checkReasonList_mem_ok hres r hmem) hbad2
  · intro out hout
    simp only [validateAssessmentReasons] at hout
    cases hassert : assertReasonCitations (hydrateMissingEvidenceRefs reasons evidenceItems)
        evidenceItems with
    | error e => rw [hassert] at hout; cases hout
    | ok u =>
      cases u
      rw [hassert] at hout
      cases hout
      refine ⟨rfl, ?_⟩
      intro r hrmem ref href
      unfold assertReasonCitations at hassert
      by_cases hz : (hydrateMissingEvidenceRefs reasons evidenceItems).length = 0
      · rw [if_pos hz] at hassert; cases hassert
      · rw [if_neg hz] at hassert
        exact checkReason_ok_refs_resolve (checkReasonList_mem_ok hassert r hrmem) ref href

/-- A concrete two-item evidence ledger. -/
def sampleLedger : List EvidenceItem :=
  [{ id := "ev_rpc_code_1a2b3c4d", tool := "rpc_getBytecode",
     title := "Base RPC bytecode lookup", status := "ok", error := none },
   { id := "ev_dex_5e6f7a8b", tool := "dexscreener_getPairs",
     title := "DexScreener Base market data", status := "ok", error := none }]

/-- A reason with an empty evidenceRefs list, to be hydrated. -/
def sampleEmptyRefsReason : Reason :=
  { title := "Liquidity present", detail := "A funded pair exists", evidenceRefs := [] }

/-- Witness for C9: on a ledger of two items, a single reason with empty
evidenceRefs validates, comes back hydrated with both ids, and every ref
resolves; the zero-reason and unresolved-ref rejections fire on concrete bad
inputs. -/
theorem validateAssessmentReasons_spec_witness :
    (validateAssessmentReasons [sampleEmptyRefsReason] sampleLedger =
      Except.ok (hydrateMissingEvidenceRefs [sampleEmptyRefsReason] sampleLedger) ∧
      ∀ r ∈ hydrateMissingEvidenceRefs [sampleEmptyRefsReason] sampleLedger,
        ∀ ref ∈ r.evidenceRefs, ref ∈ sampleLedger.map (fun item => item.id)) ∧
    isErrorResult (validateAssessmentReasons [] sampleLedger) = true ∧
    isErrorResult (validateAssessmentReasons
      [{ title := "t", detail := "d", evidenceRefs := ["ev_missing"] }] sampleLedger) = true := by
  have h1 := (validateAssessmentReasons_spec [sampleEmptyRefsReason] sampleLedger).2.2.2
      (hydrateMissingEvidenceRefs [sampleEmptyRefsReason] sampleLedger) (by rfl)
  have h2 := (validateAssessmentReasons_spec ([] : List Reason) sampleLedger).1 rfl
  have h3 := (validateAssessmentReasons_spec
      [{ title := "t", detail := "d", evidenceRefs := ["ev_missing"] }] sampleLedger).2.2.1
      ⟨_, List.mem_singleton.mpr rfl, by decide, "ev_missing", by decide, by decide⟩
  exact ⟨⟨by rfl, h1.2⟩, h2, h3⟩

/-! ## Assessor retry loop (agent-scan.ts, assessBaseScan) -/

def lowerChars (cs : List Char) : List Char := cs.map Char.toLower

def containsSeq (needle hay : List Char) : Bool :=
  (List.range (hay.length + 1)).any (fun i => needle.isPrefixOf (hay.drop i))

/-- isNoOutputError from agent-scan.ts: the lowercased error message contains
the substring no output generated. -/
def isNoOutputError (message : String) : Bool :=
  containsSeq "no output generated".toList (lowerChars message.toList)

def FALLBACK_MODEL_ID : String := "llama-3.3-70b"

/-- The evidence payload variants prepared by
buildAssessmentEvidenceVariants, in order: full then compact. -/
def assessmentVariants : List String := ["full", "compact"]

/-- candidateModels from assessBaseScan: the configured model alone when it
already is the fallback id, otherwise the configured model then the fallback. -/
def candidateModels (modelId : String) : List String :=
  if modelId = FALLBACK_MODEL_ID then [modelId] else [modelId, FALLBACK_MODEL_ID]

/-- The inner variant loop of assessBaseScan. The oracle gives the outcome of
one whole attempt (generate, parse, hydrate, citation validation): ok on
success, or the error message it threw. Returns the attempts made in order,
the successful attempt if any, and the final lastError. The code branches on
hasMoreVariants and isNoOutputError exactly as the source does; note that the
two continue paths are the same. -/
def tryVariantList (oracle : String → String → Except String Unit) (model : String) :
    List String → Option String →
      List (String × String) × Option (String × String) × Option String
  | [], lastError => ([], none, lastError)
  | v :: rest, lastError =>
      match oracle model v with
      | Except.ok _ => ([(model, v)], some (model, v), lastError)
      | Except.error e =>
          let hasMoreVariants := !rest.isEmpty
          if hasMoreVariants && isNoOutputError e then
            let next := tryVariantList oracle model rest (some e)
            ((model, v) :: next.1, next.2.1, next.2.2)
          else if !hasMoreVariants then
            ([(model, v)], none, some e)
          else
            let next := tryVariantList oracle model rest (some e)
            ((model, v) :: next.1, next.2.1, next.2.2)

/-- The outer model loop of assessBaseScan: for each candidate model run the
variant loop, stopping at the first success. -/
def tryModelList (oracle : String → String → Except String Unit) :
    List String → Option String →
      List (String × String) × Option (String × String) × Option String
  | [], lastError => ([], none, lastError)
  | m :: ms, lastError =>
      let res := tryVariantList oracle m assessmentVariants lastError
      match res.2.1 with
      | some mv => (res.1, some mv, res.2.2)
      | none =>
          let next := tryModelList oracle ms res.2.2
          (res.1 ++ next.1, next.2.1, next.2.2)

/-- assessBaseScan's attempt schedule for a configured model id. -/
def assessBaseScanAttempts (oracle : String → String → Except String Unit)
    (modelId : String) :
    List (String × String) × Option (String × String) × Option String :=
  tryModelList oracle (candidateModels modelId) none

def exceptIsOk {α : Type} : Except String α → Bool
  | Except.ok _ => true
  | Except.error _ => false

/-- The prefix of an attempt schedule up to and including the first successful
attempt (the whole schedule when none succeeds). -/
def takeThroughFirstOk (oracle : String → String → Except String Unit) :
    List (String × String) → List (String × String)
  | [] => []
  | mv :: rest =>
      if exceptIsOk (oracle mv.1 mv.2) then [mv]
      else mv :: takeThroughFirstOk oracle rest

/-- The first successful attempt of a schedule, if any. -/
def firstOk (oracle : String → String → Except String Unit) :
    List (String × String) → Option (String × String)
  | [] => none
  | mv :: rest =>
      if exceptIsOk (oracle mv.1 mv.2) then some mv else firstOk oracle rest

/-- The four (model, payload) pairs of the claim, in the claimed order. -/
def attemptOrder (modelId : String) : List (String × String) :=
  [(modelId, "full"), (modelId, "compact"),
   (FALLBACK_MODEL_ID, "full"), (FALLBACK_MODEL_ID, "compact")]

theorem takeThroughFirstOk_cons (oracle : String → String → Except String Unit)
    (mv : String × String) (rest : List (String × String)) :
    takeThroughFirstOk oracle (mv :: rest) =
      if exceptIsOk (oracle mv.1 mv.2) then [mv]
      else mv :: takeThroughFirstOk oracle rest := rfl

theorem firstOk_cons (oracle : String → String → Except String Unit)
    (mv : String × String) (rest : List (String × String)) :
    firstOk oracle (mv :: rest) =
      if exceptIsOk (oracle mv.1 mv.2) then some mv else firstOk oracle rest := rfl

theorem firstOk_none_take {oracle : String → String → Except String Unit}
    {l : List (String × String)} (h : firstOk oracle l = none) :
    takeThroughFirstOk oracle l = l := by
  induction l with
  | nil => rfl
  | cons mv rest ih =>
    rw [firstOk_cons] at h
    by_cases hok : exceptIsOk (oracle mv.1 mv.2) = true
    · rw [if_pos hok] at h; cases h
    · rw [if_neg hok] at h
      rw [takeThroughFirstOk_cons, if_neg hok, ih h]

theorem takeThroughFirstOk_append (oracle : String → String → Except String Unit)
    (l1 l2 : List (String × String)) (h : firstOk oracle l1 = none) :
    takeThroughFirstOk oracle (l1 ++ l2) = l1 ++ takeThroughFirstOk oracle l2 ∧
    firstOk oracle (l1 ++ l2) = firstOk oracle l2 := by
  induction l1 with
  | nil => exact ⟨rfl, rfl⟩
  | cons mv rest ih =>
    rw [firstOk_cons] at h
    by_cases hok : exceptIsOk (oracle mv.1 mv.2) = true
    · rw [if_pos hok] at h; cases h
    · rw [if_neg hok] at h
      obtain ⟨ht, hf⟩ := ih h
      constructor
      · rw [List.cons_append, takeThroughFirstOk_cons, if_neg hok, ht, List.cons_append]
      · rw [List.cons_append, firstOk_cons, if_neg hok, hf]

theorem takeThroughFirstOk_append_some (oracle : String → String → Except String Unit)
    (l1 l2 : List (String × String)) (mv0 : String × String)
    (h : firstOk oracle l1 = some mv0) :
    takeThroughFirstOk oracle (l1 ++ l2) = takeThroughFirstOk oracle l1 ∧
    firstOk oracle (l1 ++ l2) = some mv0 := by
  induction l1 with
  | nil => cases h
  | cons mv rest ih =>
    rw [firstOk_cons] at h
    by_cases hok : exceptIsOk (oracle mv.1 mv.2) = true
    · rw [if_pos hok] at h
      constructor
      · rw [List.cons_append, takeThroughFirstOk_cons, if_pos hok,
          takeThroughFirstOk_cons, if_pos hok]
      · rw [List.cons_append, firstOk_cons, if_pos hok, h]
    · rw [if_neg hok] at h
      obtain ⟨ht, hf⟩ := ih h
      constructor
      · rw [List.cons_append, takeThroughFirstOk_cons, if_neg hok, ht,
          takeThroughFirstOk_cons, if_neg hok]
      · rw [List.cons_append, firstOk_cons, if_neg hok, hf]

theorem tryModelList_nil (oracle : String → String → Except String Unit)
    (lastError : Option String) :
    tryModelList oracle [] lastError = ([], none, lastError) := rfl

theorem tryModelList_cons (oracle : String → String → Except String Unit)
    (m : String) (ms : List String) (lastError : Option String) :
    tryModelList oracle (m :: ms) lastError =
      (match (tryVariantList oracle m assessmentVariants lastError).2.1 with
       | some mv => ((tryVariantList oracle m assessmentVariants lastError).1, some mv,
           (tryVariantList oracle m assessmentVariants lastError).2.2)
       | none =>
           ((tryVariantList oracle m assessmentVariants lastError).1 ++
             (tryModelList oracle ms (tryVariantList oracle m assessmentVariants lastError).2.2).1,
            (tryModelList oracle ms (tryVariantList oracle m assessmentVariants lastError).2.2).2.1,
            (tryModelList oracle ms (tryVariantList oracle m assessmentVariants lastError).2.2).2.2)) := by
  show (let res := tryVariantList oracle m assessmentVariants lastError
        match res.2.1 with
        | some mv => (res.1, some mv, res.2.2)
        | none =>
            let next := tryModelList oracle ms res.2.2
            (res.1 ++ next.1, next.2.1, next.2.2)) = _
  cases hr : (tryVariantList oracle m assessmentVariants lastError).2.1 <;> simp [hr]

theorem tryVariantList_pair (oracle : String → String → Except String Unit)
    (m : String) (lastError : Option String) :
    (tryVariantList oracle m assessmentVariants lastError).1 =
      takeThroughFirstOk oracle [(m, "full"), (m, "compact")] ∧
    (tryVariantList oracle m assessmentVariants lastError).2.1 =
      firstOk oracle [(m, "full"), (m, "compact")] := by
  cases h1 : oracle m "full" with
  | ok u =>
    cases u
    constructor <;>
      simp [assessmentVariants, tryVariantList, takeThroughFirstOk, firstOk, exceptIsOk, h1]
  | error e1 =>
    cases h2 : oracle m "compact" with
    | ok u =>
      cases u
      by_cases hno : isNoOutputError e1 = true <;> constructor <;>
        simp [assessmentVariants, tryVariantList, takeThroughFirstOk, firstOk,
          exceptIsOk, h1, h2, hno]
    | error e2 =>
      by_cases hno : isNoOutputError e1 = true <;> constructor <;>
        simp [assessmentVariants, tryVariantList, takeThroughFirstOk, firstOk,
          exceptIsOk, h1, h2, hno]

/-- C3 amended: with a configured model distinct from the fallback id, the
bridge attempts (model, payload) pairs in exactly the order (primary, full),
(primary, compact), (fallback, full), (fallback, compact); it stops at the
first attempt that succeeds end to end and advances to the next attempt on
any attempt failure — no-output errors, parse failures and citation-validation
failures alike — so a citation-failing attempt is rejected and the next pair
is tried. -/
theorem assessBaseScan_attempt_order (oracle : String → String → Except String Unit)
    (modelId : String) (h : modelId ≠ FALLBACK_MODEL_ID) :
    (assessBaseScanAttempts oracle modelId).1 =
      takeThroughFirstOk oracle (attemptOrder modelId) ∧
    (assessBaseScanAttempts oracle modelId).2.1 =
      firstOk oracle (attemptOrder modelId) := by
  have hcand : candidateModels modelId = [modelId, FALLBACK_MODEL_ID] := by
    unfold candidateModels
    rw [if_neg h]
  have hsplit : attemptOrder modelId =
      [(modelId, "full"), (modelId, "compact")] ++
        [(FALLBACK_MODEL_ID, "full"), (FALLBACK_MODEL_ID, "compact")] := rfl
  obtain ⟨hp1, hp2⟩ := tryVariantList_pair oracle modelId none
  obtain ⟨hq1, hq2⟩ := tryVariantList_pair oracle FALLBACK_MODEL_ID
    (tryVariantList oracle modelId assessmentVariants none).2.2
  unfold assessBaseScanAttempts
  rw [hcand, tryModelList_cons]
  cases hfirst : firstOk oracle [(modelId, "full"), (modelId, "compact")] with
  | some mv =>
    obtain ⟨hta, hfa⟩ := takeThroughFirstOk_append_some oracle
      [(modelId, "full"), (modelId, "compact")]
      [(FALLBACK_MODEL_ID, "full"), (FALLBACK_MODEL_ID, "compact")] mv hfirst
    rw [hfirst] at hp2
    simp only [hp2]
    constructor
    · rw [hp1, hsplit, hta]
    · rw [hsplit, hfa]
  | none =>
    obtain ⟨hta, hfa⟩ := takeThroughFirstOk_append oracle
      [(modelId, "full"), (modelId, "compact")]
      [(FALLBACK_MODEL_ID, "full"), (FALLBACK_MODEL_ID, "compact")] hfirst
    rw [hfirst] at hp2
    simp only [hp2, tryModelList_cons, tryModelList_nil]
    cases hsec : firstOk oracle
        [(FALLBACK_MODEL_ID, "full"), (FALLBACK_MODEL_ID, "compact")] with
    | some mv2 =>
      rw [hsec] at hq2
      simp only [hq2]
      constructor
      · rw [hp1, hq1, firstOk_none_take hfirst, hsplit, hta]
      · rw [hsplit, hfa, hsec]
    | none =>
      rw [hsec] at hq2
      simp only [hq2]
      constructor
      · rw [hp1, hq1, firstOk_none_take hfirst, hsplit, hta, List.append_nil]
      · rw [hsplit, hfa, hsec]

/-- An oracle whose (primary, full) attempt fails citation validation (not a
no-output error) and whose other attempts succeed. -/
def citationFailOracle : String → String → Except String Unit := fun m v =>
  if m = "primary-model" ∧ v = "full" then
    Except.error "Assessment referenced unknown evidence id: ev_missing"
  else Except.ok ()

/-- C3 counterexample: the (primary, full) attempt fails with a
citation-validation error that is not a no-output error, yet the bridge still
advances to (primary, compact) and succeeds there — refuting that it advances
only on no-output errors. -/
theorem assessBaseScan_advances_on_citation_failure :
    isNoOutputError "Assessment referenced unknown evidence id: ev_missing" = false ∧
    citationFailOracle "primary-model" "full" =
      Except.error "Assessment referenced unknown evidence id: ev_missing" ∧
    (assessBaseScanAttempts citationFailOracle "primary-model").1 =
      [("primary-model", "full"), ("primary-model", "compact")] ∧
    (assessBaseScanAttempts citationFailOracle "primary-model").2.1 =
      some ("primary-model", "compact") := by
  refine ⟨by decide, by rfl, by decide, by decide⟩

/-- Witness for C3 (amended) at the concrete oracle and primary model. -/
theorem assessBaseScan_attempt_order_witness :
    (assessBaseScanAttempts citationFailOracle "primary-model").1 =
      takeThroughFirstOk citationFailOracle (attemptOrder "primary-model") ∧
    (assessBaseScanAttempts citationFailOracle "primary-model").2.1 =
      firstOk citationFailOracle (attemptOrder "primary-model") :=
  assessBaseScan_attempt_order citationFailOracle "primary-model" (by decide)

/-! ## Bitquery holders client (bitquery-holders, quota-aware variant) -/

/-- One upstream response to a Bitquery GraphQL POST: a non-2xx HTTP status,
or a 2xx body carrying a (possibly empty) errors array and the holder rows.
A row is a pair of optional Holder.Address and optional Balance.Amount. -/
inductive BitqueryResponse where
  | httpError (status : Nat)
  | ok (errors : List (Option String)) (entries : List (Option String × Option String))
deriving DecidableEq, Repr

/-- isCreditsOrRateLimitStatus from the holders client. -/
def isCreditsOrRateLimitStatus (status : Nat) : Bool :=
  status == 402 || status == 429

def lowerStr (s : String) : String := String.mk (lowerChars s.toList)

/-- hasQuotaError from the holders client: some error message, lowercased,
contains credit, rate limit, too many, or quota. -/
def hasQuotaError (errors : List (Option String)) : Bool :=
  errors.length > 0 && errors.any (fun e =>
    let message := lowerChars (e.getD "").toList
    containsSeq "credit".toList message ||
    containsSeq "rate limit".toList message ||
    containsSeq "too many".toList message ||
    containsSeq "quota".toList message)

/-- The GraphQL errors array joined into one message, with missing messages
replaced by the unknown-error placeholder. -/
def joinErrorMessages (errors : List (Option String)) : String :=
  String.intercalate "; " (errors.map (fun e => e.getD "Unknown GraphQL error"))

/-- The row shaping shared by the primary and fallback paths: lowercase the
address with missing addresses becoming empty, default the amount to 0, then
drop rows with an empty address or a 0 amount. -/
def shapeHolders (entries : List (Option String × Option String)) :
    List (String × String) :=
  (entries.map (fun row => (lowerStr (row.1.getD ""), row.2.getD "0"))).filter
    (fun holder => holder.1.length > 0 && holder.2 != "0")

inductive ProbeOutcome where
  | success (holders : List (String × String))
  | quotaStop (lastError : String)
  | exhausted (lastError : String)
deriving DecidableEq, Repr

/-- The archive-probe loop of getTopHoldersFromBitquery over the responses it
receives, one per attempted date: a non-2xx response updates lastError and
stops without fallback on 402/429; GraphQL errors update lastError and stop
without fallback when quota-shaped; fewer shaped rows than minimumRows moves
to the next date; otherwise the holders are returned. -/
def runPrimaryProbes (minimumRows : Nat) :
    List BitqueryResponse → String → ProbeOutcome
  | [], lastError => ProbeOutcome.exhausted lastError
  | BitqueryResponse.httpError status :: rest, _lastError =>
      let e := "Bitquery request failed with " ++ toString status
      if isCreditsOrRateLimitStatus status then ProbeOutcome.quotaStop e
      else runPrimaryProbes minimumRows rest e
  | BitqueryResponse.ok errors entries :: rest, _lastError =>
      if errors.length > 0 then
        let e := joinErrorMessages errors
        if hasQuotaError errors then ProbeOutcome.quotaStop e
        else runPrimaryProbes minimumRows rest e
      else
        let holders := shapeHolders entries
        if holders.length < minimumRows then
          runPrimaryProbes minimumRows rest
            ("Bitquery returned " ++ toString holders.length ++ " holder rows")
        else ProbeOutcome.success holders

/-- The BalanceUpdates fallback query of getTopHoldersFromBitquery: its
failure message (non-2xx, GraphQL errors, or too few rows) becomes the thrown
error; enough shaped rows succeed. -/
def runFallbackQuery (minimumRows : Nat) (response : BitqueryResponse) :
    Except String (List (String × String)) :=
  match response with
  | BitqueryResponse.httpError status =>
      Except.error ("Bitquery fallback request failed with " ++ toString status)
  | BitqueryResponse.ok errors entries =>
      if errors.length > 0 then Except.error (joinErrorMessages errors)
      else
        let holders := shapeHolders entries
        if minimumRows ≤ holders.length then Except.ok holders
        else
          Except.error ("Bitquery fallback returned " ++ toString holders.length ++
            " holder rows")

/-- The outcome of one getTopHoldersFromBitquery call: the returned method and
holders, or the thrown error message; and whether the fallback query was
issued at all. -/
structure BitqueryFetchOutcome where
  result : Except String (String × List (String × String))
  fallbackAttempted : Bool

/-- getTopHoldersFromBitquery, parameterised by the responses the upstream
returns for the probed dates and for the fallback query. minimumRows is
max(1, min(limit, minRows)) as in the source; a quotaStop of the probe loop
throws the recorded error without running the fallback. -/
def getTopHoldersFromBitquery (probeResponses : List BitqueryResponse)
    (fallbackResponse : BitqueryResponse) (limit minRows : Nat) :
    BitqueryFetchOutcome :=
  let minimumRows := max 1 (min limit minRows)
  match runPrimaryProbes minimumRows probeResponses "No holder data returned" with
  | ProbeOutcome.success holders =>
      { result := Except.ok ("token_holders", holders), fallbackAttempted := false }
  | ProbeOutcome.quotaStop e =>
      { result := Except.error e, fallbackAttempted := false }
  | ProbeOutcome.exhausted _e =>
      match runFallbackQuery minimumRows fallbackResponse with
      | Except.ok holders =>
          { result := Except.ok ("balance_updates", holders), fallbackAttempted := true }
      | Except.error e2 =>
          { result := Except.error e2, fallbackAttempted := true }

/-- The holders arm of runEvidenceTool: a successful fetch yields an ok
evidence item; a thrown error is caught and becomes an unavailable item with
the error message preserved. Random id suffixes are elided. -/
def holdersEvidenceItem (outcome : BitqueryFetchOutcome) : EvidenceItem :=
  match outcome.result with
  | Except.ok _ =>
      { id := "ev_holders", tool := "holders_getTopHolders",
        title := "Bitquery holder distribution", status := "ok", error := none }
  | Except.error e =>
      { id := "ev_holders_getTopHolders", tool := "holders_getTopHolders",
        title := "Fetch holder distribution", status := "unavailable", error := some e }

/-- The only step-level abort in the runner loop: the bytecode tool reporting
hasCode false. Every other evidence item, whatever its status, lets the run
continue. -/
def stepAbortsRun (toolName status : String) (dataHasCode : Option Bool) : Bool :=
  toolName == "rpc_getBytecode" && status == "ok" && dataHasCode == some false

/-- A probe response that neither returns holders nor stops the loop: a
non-quota HTTP failure, non-quota GraphQL errors, or too few rows. -/
def isNonReturningProbe (minimumRows : Nat) (r : BitqueryResponse) : Prop :=
  match r with
  | BitqueryResponse.httpError status => isCreditsOrRateLimitStatus status = false
  | BitqueryResponse.ok errors entries =>
      (errors.length > 0 ∧ hasQuotaError errors = false) ∨
      (errors.length = 0 ∧ (shapeHolders entries).length < minimumRows)

/-- A response that makes the probe loop stop without fallback: HTTP 402/429,
or GraphQL errors that are quota-shaped. -/
def isQuotaTrigger (r : BitqueryResponse) : Prop :=
  match r with
  | BitqueryResponse.httpError status => isCreditsOrRateLimitStatus status = true
  | BitqueryResponse.ok errors _entries =>
      errors.length > 0 ∧ hasQuotaError errors = true

/-- The upstream error message recorded for a quota trigger. -/
def quotaTriggerMessage : BitqueryResponse → String
  | BitqueryResponse.httpError status => "Bitquery request failed with " ++ toString status
  | BitqueryResponse.ok errors _entries => joinErrorMessages errors

theorem runPrimaryProbes_quotaStop (minimumRows : Nat) (t : BitqueryResponse)
    (ht : isQuotaTrigger t) (rest : List BitqueryResponse) :
    ∀ (pre : List BitqueryResponse) (lastError : String),
      (∀ r ∈ pre, isNonReturningProbe minimumRows r) →
      runPrimaryProbes minimumRows (pre ++ t :: rest) lastError =
        ProbeOutcome.quotaStop (quotaTriggerMessage t) := by
  intro pre
  induction pre with
  | nil =>
    intro lastError _hpre
    cases t with
    | httpError status =>
      have hs : isCreditsOrRateLimitStatus status = true := ht
      simp [runPrimaryProbes, hs, quotaTriggerMessage]
    | ok errors entries =>
      obtain ⟨hlen, hq⟩ := (ht : errors.length > 0 ∧ hasQuotaError errors = true)
      simp only [List.nil_append, runPrimaryProbes]
      rw [if_pos hlen, if_pos hq]
      rfl
  | cons r pre ih =>
    intro lastError hpre
    have hr := hpre r (List.mem_cons_self r pre)
    have hpre2 : ∀ x ∈ pre, isNonReturningProbe minimumRows x :=
      fun x hx => hpre x (List.mem_cons_of_mem r hx)
    cases r with
    | httpError status =>
      have hs : isCreditsOrRateLimitStatus status = false := hr
      simp only [List.cons_append, runPrimaryProbes]
      rw [if_neg (by rw [hs]; exact Bool.false_ne_true)]
      exact ih _ hpre2
    | ok errors entries =>
      cases hr with
      | inl hcase =>
        obtain ⟨hlen, hq⟩ := hcase
        simp only [List.cons_append, runPrimaryProbes]
        rw [if_pos hlen, if_neg (by rw [hq]; exact Bool.false_ne_true)]
        exact ih _ hpre2
      | inr hcase =>
        obtain ⟨hlen, hshort⟩ := hcase
        simp only [List.cons_append, runPrimaryProbes]
        rw [if_neg (by rw [hlen]; exact lt_irrefl 0), if_pos hshort]
        exact ih _ hpre2

/-- C1: when the primary TokenHolders probes reach a response that is HTTP
402/429 or carries a quota-shaped GraphQL error (after any number of probes
that merely failed or returned too few rows), the client throws that upstream
error without issuing the BalanceUpdates fallback query; the holders evidence
item comes back unavailable with the error preserved, and such an item never
aborts the scan run. -/
theorem bitquery_quota_skips_fallback (pre rest : List BitqueryResponse)
    (t fb : BitqueryResponse) (limit minRows : Nat)
    (hpre : ∀ r ∈ pre, isNonReturningProbe (max 1 (min limit minRows)) r)
    (ht : isQuotaTrigger t) :
    (getTopHoldersFromBitquery (pre ++ t :: rest) fb limit minRows).result =
      Except.error (quotaTriggerMessage t) ∧
    (getTopHoldersFromBitquery (pre ++ t :: rest) fb limit minRows).fallbackAttempted
      = false ∧
    (holdersEvidenceItem (getTopHoldersFromBitquery (pre ++ t :: rest) fb limit
      minRows)).status = "unavailable" ∧
    (holdersEvidenceItem (getTopHoldersFromBitquery (pre ++ t :: rest) fb limit
      minRows)).error = some (quotaTriggerMessage t) ∧
    (∀ dataHasCode,
      stepAbortsRun "holders_getTopHolders"
        (holdersEvidenceItem (getTopHoldersFromBitquery (pre ++ t :: rest) fb limit
          minRows)).status dataHasCode = false) := by
  have hprobe := runPrimaryProbes_quotaStop (max 1 (min limit minRows)) t ht rest pre
    "No holder data returned" hpre
  have houtcome : getTopHoldersFromBitquery (pre ++ t :: rest) fb limit minRows =
      { result := Except.error (quotaTriggerMessage t), fallbackAttempted := false } := by
    simp only [getTopHoldersFromBitquery]
    rw [hprobe]
  rw [houtcome]
  refine ⟨rfl, rfl, rfl, rfl, ?_⟩
  intro dataHasCode
  simp [stepAbortsRun, holdersEvidenceItem]

/-- Witness for C1: the very first probe answers HTTP 429; the error is
Bitquery request failed with 429, the fallback is skipped, the evidence item
is unavailable, and the run is not aborted. -/
theorem bitquery_quota_skips_fallback_witness :
    (getTopHoldersFromBitquery [BitqueryResponse.httpError 429]
      (BitqueryResponse.ok [] []) 10 3).result =
      Except.error (quotaTriggerMessage (BitqueryResponse.httpError 429)) ∧
    (getTopHoldersFromBitquery [BitqueryResponse.httpError 429]
      (BitqueryResponse.ok [] []) 10 3).fallbackAttempted = false ∧
    (holdersEvidenceItem (getTopHoldersFromBitquery [BitqueryResponse.httpError 429]
      (BitqueryResponse.ok [] []) 10 3)).status = "unavailable" ∧
    (holdersEvidenceItem (getTopHoldersFromBitquery [BitqueryResponse.httpError 429]
      (BitqueryResponse.ok [] []) 10 3)).error =
      some (quotaTriggerMessage (BitqueryResponse.httpError 429)) ∧
    (∀ dataHasCode,
      stepAbortsRun "holders_getTopHolders"
        (holdersEvidenceItem (getTopHoldersFromBitquery [BitqueryResponse.httpError 429]
          (BitqueryResponse.ok [] []) 10 3)).status dataHasCode = false) :=
  bitquery_quota_skips_fallback [] [] (BitqueryResponse.httpError 429)
    (BitqueryResponse.ok [] []) 10 3 (by intro r hr; cases hr) (by rfl)

end Drona
